import Mathlib

/-
  Verification of the busquick backend's seat-inventory, listing, cancellation
  and payment-cancellation logic, shallowly embedded from the route handlers in
  src/backend/routes/busesRoute.js, bookingRoute.js and paymentRoute.js and the
  schemas in src/backend/model/busModel.js and bookingModel.js.

  Documents are embedded as records; Mongo `_id`s become `Nat` keys (unique per
  collection), `busGroupId` stays a `String` (the schema defaults it to the
  document's own id rendered as a string).  Seat identifiers are the strings
  stored in `seatsBooked` (the group-wide endpoint normalises request values
  with `toString()`, which is the identity on strings).  Timestamps are `Int`
  milliseconds for the payment store and `Int` minutes for bus scheduling, with
  `journeydate` an `Int` day index (`setHours` replaces the time of day of the
  journey date, so only the calendar day matters).
-/

namespace BusQuick

/-- Booking lifecycle status, from the `status` enum of bookingModel.js. -/
inductive BookingStatus where
  | pending
  | confirmed
  | cancelled
  | completed
deriving Repr, DecidableEq

/-- One bus document (one bookable segment), from busModel.js.  Fields not
touched by any verified route (driver name, amenities, ...) are omitted. -/
structure Bus where
  id : Nat
  busGroupId : String
  capacity : Nat
  «from» : String
  «to» : String
  pickup : String
  dropoff : String
  journeydate : Int
  departure : String
  arrival : String
  price : Nat
  status : String
  seatsBooked : List String
  isFullyBooked : Bool
  isActive : Bool
  isSegment : Bool
  parentBus : Option Nat
deriving Repr, DecidableEq

/-- One booking document, from bookingModel.js. -/
structure Booking where
  id : Nat
  busId : Nat
  seats : List String
  transactionId : String
  totalPrice : Nat
  status : BookingStatus
deriving Repr, DecidableEq

/-- `Bus.findById`: point lookup in the bus collection. -/
def findBus (db : List Bus) (busId : Nat) : Option Bus :=
  db.find? (fun b => b.id = busId)

/-- One step of the authoritative-seats loop: keep the accumulator unless the
next bus's stored list is strictly longer
(`if (bus.seatsBooked && bus.seatsBooked.length > maxBookedSeats.length)`). -/
def pickLonger (acc : List String) (b : Bus) : List String :=
  if acc.length < b.seatsBooked.length then b.seatsBooked else acc

/-- The `maxBookedSeats` computation of the listing / search / get-by-id
handlers in busesRoute.js: fold over the group's documents starting from `[]`,
keeping the first strictly-longer stored seat list. -/
def maxBookedSeats (groupBuses : List Bus) : List String :=
  groupBuses.foldl pickLonger []

/-- The per-group shared seat inventory (`groupSeatsMap[groupId]`) used by the
listing and search handlers: load every document of the group and take the
longest stored seat list. -/
def groupSeats (db : List Bus) (gid : String) : List String :=
  maxBookedSeats (db.filter (fun b => b.busGroupId = gid))

/-- The shared-seats computation of `GET /get-bus/:id` (busesRoute.js
lines 430-443): same fold over the group of the found bus. -/
def getBusSharedSeats (db : List Bus) (bus : Bus) : List String :=
  maxBookedSeats (db.filter (fun b => b.busGroupId = bus.busGroupId))

/-- One step of the authoritative-bus loop of `POST /book-seats`: replace the
accumulator bus only when the candidate's stored list is strictly longer. -/
def pickLongerBus (acc b : Bus) : Bus :=
  if acc.seatsBooked.length < b.seatsBooked.length then b else acc

/-- The `authoritativeBus` selection of `POST /book-seats` (busesRoute.js
lines 488-494): start from `groupBuses[0]` and scan the whole group. -/
def authoritativeBusOf (g0 : Bus) (rest : List Bus) : Bus :=
  (g0 :: rest).foldl pickLongerBus g0

/-- The group-wide commit of `POST /book-seats` (busesRoute.js lines 515-527):
every document of the group (documents are keyed by their unique `_id`; the
group members are exactly the documents whose `busGroupId` matches) receives
the same new seat list and the shared fully-booked flag computed from the
requested bus's capacity. -/
def commitFn (gid : String) (newSeats : List String) (cap : Nat) (b : Bus) : Bus :=
  if b.busGroupId = gid then
    { b with seatsBooked := newSeats,
             isFullyBooked := decide (cap ≤ newSeats.length) }
  else b

/-- Fan the per-document update of `commitFn` out over the collection. -/
def commitGroup (db : List Bus) (gid : String) (newSeats : List String)
    (cap : Nat) : List Bus :=
  db.map (commitFn gid newSeats cap)

/-- Error outcomes of the two booking endpoints, mirroring their HTTP error
responses (400 validation, 404 not found, 400/409 conflict). -/
inductive BookError where
  | invalidRequest
  | busNotFound
  | groupNotFound
  | seatsAlreadyBooked (offending : List String)
  | notEnoughSeats
deriving Repr, DecidableEq

/-- `POST /book-seats` (busesRoute.js lines 467-540): validate, look up the
requested bus, load its group, pick the authoritative (longest-list) member,
reject seats already present there, reject when the new total exceeds the
requested bus's capacity, otherwise commit the appended list group-wide. -/
def bookSeats (db : List Bus) (busId : Nat) (seats : List String) :
    Except BookError (List Bus) :=
  if seats.isEmpty then .error .invalidRequest
  else
    match findBus db busId with
    | none => .error .busNotFound
    | some requestedBus =>
      match db.filter (fun b => b.busGroupId = requestedBus.busGroupId) with
      | [] => .error .groupNotFound
      | g0 :: rest =>
        let currentlyBookedSeats := (authoritativeBusOf g0 rest).seatsBooked
        let alreadyBooked := seats.filter (fun s => currentlyBookedSeats.contains s)
        if 0 < alreadyBooked.length then
          .error (.seatsAlreadyBooked alreadyBooked)
        else if requestedBus.capacity < currentlyBookedSeats.length + seats.length then
          .error .notEnoughSeats
        else
          .ok (commitGroup db requestedBus.busGroupId
                (currentlyBookedSeats ++ seats) requestedBus.capacity)

/-- `POST /book-seat` (bookingRoute.js lines 77-165): validate required fields,
look up the single requested bus, reject seats already on that one document,
then create the confirmed booking and append the seats to that document only. -/
def bookSeat (db : List Bus) (bookings : List Booking) (newId : Nat)
    (busId : Nat) (transactionId : String) (totalPrice : Nat)
    (seats : List String) : Except BookError (List Bus × List Booking) :=
  if transactionId = "" ∨ totalPrice = 0 ∨ seats.isEmpty then
    .error .invalidRequest
  else
    match findBus db busId with
    | none => .error .busNotFound
    | some busRecord =>
      let alreadyBookedSeats := seats.filter (fun s => busRecord.seatsBooked.contains s)
      if 0 < alreadyBookedSeats.length then
        .error (.seatsAlreadyBooked alreadyBookedSeats)
      else
        let newBooking : Booking :=
          { id := newId, busId := busId, seats := seats,
            transactionId := transactionId, totalPrice := totalPrice,
            status := .confirmed }
        .ok (db.map (fun b =>
               if b.id = busId then
                 { b with seatsBooked := b.seatsBooked ++ seats }
               else b),
             bookings ++ [newBooking])

/-- The seat-release write shared by the cancel and delete handlers
(bookingRoute.js lines 200-206 and 246-252): filter the booking's seats out of
the one bus document the booking references. -/
def releaseSeats (db : List Bus) (busId : Nat) (seats : List String) : List Bus :=
  db.map (fun b =>
    if b.id = busId then
      { b with seatsBooked := b.seatsBooked.filter (fun s => !seats.contains s) }
    else b)

/-- Error outcomes of cancel/delete booking. -/
inductive CancelError where
  | bookingNotFound
  | alreadyCancelled
deriving Repr, DecidableEq

/-- `PUT /cancel/:bookingId` (bookingRoute.js lines 168-221), for an authorised
caller: 404 when the booking is missing, 400 when already cancelled, otherwise
mark it cancelled and — only if the referenced bus still exists — release its
seats from that single bus document. -/
def cancelBooking (db : List Bus) (bookings : List Booking) (bookingId : Nat) :
    Except CancelError (List Bus × List Booking) :=
  match bookings.find? (fun b => b.id = bookingId) with
  | none => .error .bookingNotFound
  | some booking =>
    if booking.status = .cancelled then .error .alreadyCancelled
    else
      let bookings2 := bookings.map (fun bk =>
        if bk.id = bookingId then { bk with status := .cancelled } else bk)
      match findBus db booking.busId with
      | none => .ok (db, bookings2)
      | some _ => .ok (releaseSeats db booking.busId booking.seats, bookings2)

/-- `DELETE /delete/:bookingId` (bookingRoute.js lines 224-268), for an
authorised caller: 404 when missing, otherwise release the seats if the bus
still exists and remove the booking document. -/
def deleteBooking (db : List Bus) (bookings : List Booking) (bookingId : Nat) :
    Except CancelError (List Bus × List Booking) :=
  match bookings.find? (fun b => b.id = bookingId) with
  | none => .error .bookingNotFound
  | some booking =>
    let db2 :=
      match findBus db booking.busId with
      | none => db
      | some _ => releaseSeats db booking.busId booking.seats
    .ok (db2, bookings.filter (fun bk => !(bk.id = bookingId)))

/-! ### Route creation (`POST /add-bus`, busesRoute.js lines 149-198) -/

/-- One intermediate stop of an add-bus submission (busModel.js
`intermediateStops`). -/
structure Stop where
  city : String
  dropoff : String
  arrivalTime : String
  additionalPrice : Nat
deriving Repr, DecidableEq

/-- The add-bus request body (the fields the handler reads). -/
structure AddBusReq where
  «from» : String
  «to» : String
  pickup : String
  dropoff : String
  journeydate : Int
  departure : String
  arrival : String
  price : Nat
  capacity : Nat
  intermediateStops : List Stop
deriving Repr, DecidableEq

/-- One generated segment document: the request body spread with the stop's
destination, arrival and price, `isSegment := true`, an empty seat list, and
the main bus's id as group id and parent. -/
def mkSegment (req : AddBusReq) (mainId : Nat) (segId : Nat) (stop : Stop) : Bus :=
  { id := segId
  , busGroupId := toString mainId
  , capacity := req.capacity
  , «from» := req.«from»
  , «to» := stop.city
  , pickup := req.pickup
  , dropoff := stop.dropoff
  , journeydate := req.journeydate
  , departure := req.departure
  , arrival := stop.arrivalTime
  , price := stop.additionalPrice
  , status := "Yet To Start"
  , seatsBooked := []
  , isFullyBooked := false
  , isActive := true
  , isSegment := true
  , parentBus := some mainId }

/-- `POST /add-bus`: save the main document (its `busGroupId` defaults to its
own id rendered as a string, and is set to exactly that when segments are
generated); when intermediate stops are present, append the final destination
as the last stop and create one segment document per stop.  Fresh document ids
are `mainId + 1 + i` for the `i`-th stop. -/
def addBus (req : AddBusReq) (mainId : Nat) : List Bus :=
  let mainBus : Bus :=
    { id := mainId
    , busGroupId := toString mainId
    , capacity := req.capacity
    , «from» := req.«from»
    , «to» := req.«to»
    , pickup := req.pickup
    , dropoff := req.dropoff
    , journeydate := req.journeydate
    , departure := req.departure
    , arrival := req.arrival
    , price := req.price
    , status := "Yet To Start"
    , seatsBooked := []
    , isFullyBooked := false
    , isActive := true
    , isSegment := false
    , parentBus := none }
  if req.intermediateStops.isEmpty then [mainBus]
  else
    let allStops := req.intermediateStops ++
      [{ city := req.«to», dropoff := req.dropoff,
         arrivalTime := req.arrival, additionalPrice := req.price }]
    mainBus :: (allStops.enum.map (fun p => mkSegment req mainId (mainId + 1 + p.1) p.2))

/-! ### Listing time filter and booking cutoff (busesRoute.js GET `/` and
`POST /get-all-buses`) -/

/-- Digit value of a character. -/
def digitVal (c : Char) : Nat := c.toNat - 48

/-- Try to match the regex `(\d{1,2}):(\d{2})` at the head of the character
list, greedily preferring two digits for the first group exactly as the
JavaScript engine does, returning (hours, minutes). -/
def matchHMAt (cs : List Char) : Option (Nat × Nat) :=
  match cs with
  | a :: b :: c :: d :: e :: _ =>
    if a.isDigit ∧ b.isDigit ∧ c = ':' ∧ d.isDigit ∧ e.isDigit then
      some (digitVal a * 10 + digitVal b, digitVal d * 10 + digitVal e)
    else if a.isDigit ∧ b = ':' ∧ c.isDigit ∧ d.isDigit then
      some (digitVal a, digitVal c * 10 + digitVal d)
    else none
  | a :: b :: c :: d :: [] =>
    if a.isDigit ∧ b = ':' ∧ c.isDigit ∧ d.isDigit then
      some (digitVal a, digitVal c * 10 + digitVal d)
    else none
  | _ => none

/-- Leftmost match of `(\d{1,2}):(\d{2})` in the string, as used by
`bus.arrival.match(/(\d{1,2}):(\d{2})/)` followed by `parseInt` on the two
capture groups. -/
def findHHMM : List Char → Option (Nat × Nat)
  | [] => none
  | c :: rest =>
    match matchHMAt (c :: rest) with
    | some hm => some hm
    | none => findHHMM rest

/-- Minutes-since-epoch of the journey day combined with a time of day, the
model of `new Date(journeydate)` followed by `setHours(h, m, 0, 0)` (hour and
minute values roll over by plain addition, as in JavaScript). -/
def dayTimeMinutes (journeydate : Int) (h m : Nat) : Int :=
  journeydate * 1440 + ((h : Int) * 60 + (m : Int))

/-- The `busesToKeep` filter of the listing/search handlers (busesRoute.js
lines 56-66 and 306-317): keep a bus with no parseable arrival time; otherwise
keep it exactly while `now` is strictly before journey-day arrival plus the
60-minute grace period. -/
def keepBus (now : Int) (b : Bus) : Bool :=
  match findHHMM b.arrival.toList with
  | none => true
  | some (h, m) => decide (now < dayTimeMinutes b.journeydate h m + 60)

/-- The `bookingDisabled` computation of the listing/search handlers
(busesRoute.js lines 96-106): false when the departure time does not parse,
otherwise true exactly from 30 minutes before journey-day departure. -/
def busBookingDisabled (now : Int) (b : Bus) : Bool :=
  match findHHMM b.departure.toList with
  | none => false
  | some (h, m) => decide (dayTimeMinutes b.journeydate h m - 30 ≤ now)

/-- A listed bus together with its derived fields, as shaped by the listing
handlers. -/
structure BusView where
  bus : Bus
  seatsBooked : List String
  availableSeats : Int
  isFullyBooked : Bool
  bookingDisabled : Bool
deriving Repr, DecidableEq

/-- The public listing (`GET /`, busesRoute.js lines 8-146): active,
non-cancelled buses, minus the expired ones, each carrying the group's shared
seat inventory and the derived availability and cutoff fields. -/
def listBuses (now : Int) (db : List Bus) : List BusView :=
  ((db.filter (fun b => b.isActive ∧ b.status ≠ "Cancelled")).filter
      (keepBus now)).map (fun b =>
    let shared := groupSeats db b.busGroupId
    { bus := b
    , seatsBooked := shared
    , availableSeats := (b.capacity : Int) - shared.length
    , isFullyBooked := decide (b.capacity ≤ shared.length)
    , bookingDisabled := busBookingDisabled now b })

/-! ### Payment cancellation store (paymentRoute.js) -/

/-- The 30-minute cancellation-record validity window, in milliseconds
(`30 * 60 * 1000`). -/
def cancelWindowMs : Int := 30 * 60 * 1000

/-- `isTransactionCancelled` (paymentRoute.js lines 32-50): false for a missing
reference; a present record is valid while strictly younger than 30 minutes,
and an expired record is deleted on the way out.  Returns the flag and the
(possibly cleaned-up) store. -/
def isTransactionCancelled (now : Int) (store : List (String × Int))
    (reference : String) : Bool × List (String × Int) :=
  if reference = "" then (false, store)
  else
    match store.find? (fun e => e.1 = reference) with
    | none => (false, store)
    | some e =>
      if now - e.2 < cancelWindowMs then (true, store)
      else (false, store.filter (fun e2 => !(e2.1 = reference)))

/-- Outcome of a payment-route request, distinguishing whether the upstream
provider was contacted. -/
inductive PayOutcome where
  | badRequest
  | cancelledResponse
  | contactedProvider
deriving Repr, DecidableEq

/-- `GET /verify/:reference` (paymentRoute.js lines 53-128): reject a missing
reference, short-circuit with a cancelled response when the local cancellation
mark is valid, otherwise call the provider. -/
def verifyPayment (now : Int) (store : List (String × Int))
    (reference : String) : PayOutcome × List (String × Int) :=
  if reference = "" then (.badRequest, store)
  else
    let r := isTransactionCancelled now store reference
    if r.1 then (.cancelledResponse, r.2)
    else (.contactedProvider, r.2)

/-- The `/^\d{4,6}$/` OTP format check. -/
def validOtp (otp : String) : Bool :=
  let cs := otp.toList
  decide (4 ≤ cs.length) && decide (cs.length ≤ 6) && cs.all Char.isDigit

/-- `POST /submit-otp` (paymentRoute.js lines 131-218): reject missing fields,
short-circuit with a cancelled response when the local cancellation mark is
valid (this check runs before the OTP format check), reject a malformed OTP,
otherwise forward to the provider. -/
def submitOtp (now : Int) (store : List (String × Int))
    (reference otp : String) : PayOutcome × List (String × Int) :=
  if reference = "" ∨ otp = "" then (.badRequest, store)
  else
    let r := isTransactionCancelled now store reference
    if r.1 then (.cancelledResponse, r.2)
    else if !validOtp otp then (.badRequest, r.2)
    else (.contactedProvider, r.2)

/-! ### Operation sequences over the bus store -/

/-- One seat-affecting operation: a group-wide booking through
`POST /book-seats`, or the seat-release effect of a cancellation. -/
inductive SeatOp where
  | book (busId : Nat) (seats : List String)
  | cancel (busId : Nat) (seats : List String)
deriving Repr, DecidableEq

/-- The seats carried by an operation. -/
def SeatOp.seats : SeatOp → List String
  | .book _ s => s
  | .cancel _ s => s

/-- Apply one operation; a rejected booking leaves the store unchanged (the
handler answers with an error without writing). -/
def applyOp (db : List Bus) : SeatOp → List Bus
  | .book busId seats =>
    match bookSeats db busId seats with
    | .ok db2 => db2
    | .error _ => db
  | .cancel busId seats => releaseSeats db busId seats

/-- Run a sequence of operations left to right. -/
def runOps (db : List Bus) : List SeatOp → List Bus
  | [] => db
  | op :: ops => runOps (applyOp db op) ops

/-! ### The spec's resolve rule, stated in its own words -/

/-- The Seat Inventory Reconciler's `resolve` rule as worded by the spec
(section 4.1): select, as authoritative, the group member whose stored seat
list is longest, first found on ties, and return exactly that stored list (no
union, no de-duplication). -/
def specResolveFirstLongest (buses : List Bus) : List String :=
  match buses.find? (fun b =>
      buses.all (fun c => decide (c.seatsBooked.length ≤ b.seatsBooked.length))) with
  | some b => b.seatsBooked
  | none => []

/-! ### List helper lemmas -/

theorem find?_congr_mem {α : Type} {l : List α} {p q : α → Bool}
    (h : ∀ x ∈ l, p x = q x) : l.find? p = l.find? q := by
  induction l with
  | nil => rfl
  | cons a t ih =>
    have ha := h a (by simp)
    rw [List.find?_cons, List.find?_cons, ha,
      ih (fun x hx => h x (by simp [hx]))]

theorem map_eq_self_of {α : Type} {l : List α} {f : α → α}
    (h : ∀ x ∈ l, f x = x) : l.map f = l := by
  induction l with
  | nil => rfl
  | cons a t ih =>
    simp only [List.map_cons, h a (by simp), ih (fun x hx => h x (by simp [hx]))]

theorem findBus_map_pres {f : Bus → Bus} (hid : ∀ b, (f b).id = b.id)
    (db : List Bus) (i : Nat) :
    findBus (db.map f) i = (findBus db i).map f := by
  induction db with
  | nil => rfl
  | cons b t ih =>
    simp only [findBus, List.map_cons, List.find?_cons, hid]
    by_cases hb : b.id = i
    · simp [hb]
    · simp only [show (decide (b.id = i)) = false from by simp [hb]]
      simpa [findBus] using ih

theorem filter_map_pres {f : Bus → Bus}
    (hg : ∀ b, (f b).busGroupId = b.busGroupId) (db : List Bus) (gid : String) :
    (db.map f).filter (fun b => b.busGroupId = gid) =
      (db.filter (fun b => b.busGroupId = gid)).map f := by
  induction db with
  | nil => rfl
  | cons b t ih =>
    by_cases hb : b.busGroupId = gid
    · simp [List.filter_cons, hg, hb, ih]
    · simp [List.filter_cons, hg, hb, ih]

/-! ### Properties of the longest-list fold -/

theorem foldl_pickLonger_acc_or_mem (l : List Bus) :
    ∀ acc : List String, l.foldl pickLonger acc = acc ∨
      ∃ b ∈ l, l.foldl pickLonger acc = b.seatsBooked := by
  induction l with
  | nil => intro acc; left; rfl
  | cons b t ih =>
    intro acc
    rw [List.foldl_cons]
    rcases ih (pickLonger acc b) with h | ⟨c, hc, h⟩
    · rw [h]
      unfold pickLonger
      by_cases hb : acc.length < b.seatsBooked.length
      · exact Or.inr ⟨b, by simp, by simp [hb]⟩
      · exact Or.inl (by simp [hb])
    · exact Or.inr ⟨c, by simp [hc], h⟩

theorem foldl_pickLongerBus_acc_or_mem (l : List Bus) :
    ∀ acc : Bus, l.foldl pickLongerBus acc = acc ∨
      l.foldl pickLongerBus acc ∈ l := by
  induction l with
  | nil => intro acc; left; rfl
  | cons b t ih =>
    intro acc
    rw [List.foldl_cons]
    rcases ih (pickLongerBus acc b) with h | h
    · rw [h]
      unfold pickLongerBus
      by_cases hb : acc.seatsBooked.length < b.seatsBooked.length
      · exact Or.inr (by simp [hb])
      · exact Or.inl (by simp [hb])
    · exact Or.inr (by simp [h])

theorem foldl_pickLongerBus_seats (l : List Bus) :
    ∀ acc : Bus, (l.foldl pickLongerBus acc).seatsBooked =
      l.foldl pickLonger acc.seatsBooked := by
  induction l with
  | nil => intro acc; rfl
  | cons b t ih =>
    intro acc
    rw [List.foldl_cons, List.foldl_cons, ih]
    congr 1
    unfold pickLongerBus pickLonger
    by_cases hb : acc.seatsBooked.length < b.seatsBooked.length <;> simp [hb]

/-- The authoritative bus of `POST /book-seats` is a member of the group. -/
theorem authoritativeBusOf_mem (g0 : Bus) (rest : List Bus) :
    authoritativeBusOf g0 rest ∈ g0 :: rest := by
  unfold authoritativeBusOf
  rcases foldl_pickLongerBus_acc_or_mem (g0 :: rest) g0 with h | h
  · rw [h]; simp
  · exact h

/-- The authoritative bus's stored list is exactly the `maxBookedSeats`
fold used by the read paths. -/
theorem authoritativeBusOf_seats (g0 : Bus) (rest : List Bus) :
    (authoritativeBusOf g0 rest).seatsBooked = maxBookedSeats (g0 :: rest) := by
  unfold authoritativeBusOf maxBookedSeats
  rw [foldl_pickLongerBus_seats]
  rw [List.foldl_cons, List.foldl_cons]
  congr 1
  unfold pickLonger
  by_cases h0 : (0 : Nat) < g0.seatsBooked.length
  · have : ¬ g0.seatsBooked.length < g0.seatsBooked.length := lt_irrefl _
    simp [this, List.length_pos.mp h0, h0]
  · have hz : g0.seatsBooked = [] :=
      List.length_eq_zero.mp (Nat.eq_zero_of_not_pos h0)
    simp [hz]

/-! ### The fold equals the first longest stored list -/

/-- The stored list of the option's bus, or the accumulator. -/
def seatsOr (o : Option Bus) (acc : List String) : List String :=
  match o with
  | some b => b.seatsBooked
  | none => acc

/-- Candidate predicate for the generalized fold characterization: strictly
longer than the accumulator and at least as long as every list in `l`. -/
def auxPred (acc : List String) (l : List Bus) (b : Bus) : Bool :=
  decide (acc.length < b.seatsBooked.length) &&
    l.all (fun c => decide (c.seatsBooked.length ≤ b.seatsBooked.length))

theorem exists_max_len (l : List Bus) (hne : l ≠ []) :
    ∃ x ∈ l, ∀ c ∈ l, c.seatsBooked.length ≤ x.seatsBooked.length := by
  induction l with
  | nil => exact absurd rfl hne
  | cons a t ih =>
    rcases t.eq_nil_or_concat' with ht | _
    · subst ht
      exact ⟨a, by simp⟩
    · have htne : t ≠ [] := by
        rintro rfl; simp_all
      obtain ⟨x, hx, hmax⟩ := ih htne
      by_cases hax : a.seatsBooked.length ≤ x.seatsBooked.length
      · refine ⟨x, by simp [hx], ?_⟩
        intro c hc
        rcases List.mem_cons.mp hc with rfl | hc
        · exact hax
        · exact hmax c hc
      · refine ⟨a, by simp, ?_⟩
        intro c hc
        rcases List.mem_cons.mp hc with rfl | hc
        · exact le_refl _
        · exact le_trans (hmax c hc) (le_of_not_le hax)

theorem foldl_pickLonger_eq (l : List Bus) :
    ∀ acc : List String,
      l.foldl pickLonger acc = seatsOr (l.find? (auxPred acc l)) acc := by
  induction l with
  | nil => intro acc; rfl
  | cons b t ih =>
    intro acc
    rw [List.foldl_cons, ih (pickLonger acc b)]
    by_cases hb : acc.length < b.seatsBooked.length
    · have hpick : pickLonger acc b = b.seatsBooked := if_pos hb
      rw [hpick]
      by_cases hall : ∀ c ∈ t, c.seatsBooked.length ≤ b.seatsBooked.length
      · -- b itself is the first longest
        have hrhs : (b :: t).find? (auxPred acc (b :: t)) = some b := by
          rw [List.find?_cons]
          have : auxPred acc (b :: t) b = true := by
            simp only [auxPred, List.all_cons, Bool.and_eq_true, decide_eq_true_eq,
              List.all_eq_true]
            exact ⟨hb, le_refl _, fun c hc => by simpa using hall c hc⟩
          simp [this]
        have hlhs : t.find? (auxPred b.seatsBooked t) = none := by
          rw [List.find?_eq_none]
          intro c hc
          simp only [auxPred, Bool.and_eq_true, decide_eq_true_eq]
          rintro ⟨hlt, -⟩
          exact absurd (hall c hc) (not_le.mpr hlt)
        rw [hlhs, hrhs]
        rfl
      · -- some later list is strictly longer than b's
        push_neg at hall
        obtain ⟨c0, hc0, hbc0⟩ := hall
        have hcong : ∀ x ∈ t, auxPred b.seatsBooked t x = auxPred acc (b :: t) x := by
          intro x hx
          by_cases ht : ∀ c ∈ t, c.seatsBooked.length ≤ x.seatsBooked.length
          · have hbx : b.seatsBooked.length < x.seatsBooked.length :=
              lt_of_lt_of_le hbc0 (ht c0 hc0)
            simp only [auxPred, List.all_cons, Bool.and_eq_true, decide_eq_true_eq,
              List.all_eq_true]
            have h1 : (decide (b.seatsBooked.length < x.seatsBooked.length)) = true := by
              simpa using hbx
            have h2 : (decide (acc.length < x.seatsBooked.length)) = true := by
              simp only [decide_eq_true_eq]
              exact lt_trans hb hbx
            have h3 : (decide (b.seatsBooked.length ≤ x.seatsBooked.length)) = true := by
              simpa using le_of_lt hbx
            simp [auxPred, h1, h2, h3, List.all_cons]
          · have hfail : t.all (fun c =>
                decide (c.seatsBooked.length ≤ x.seatsBooked.length)) = false := by
              push_neg at ht
              obtain ⟨c, hcmem, hlen⟩ := ht
              simp only [List.all_eq_false]
              exact ⟨c, hcmem, by simpa using hlen⟩
            simp [auxPred, hfail, List.all_cons]
        rw [find?_congr_mem hcong]
        have hbfail : auxPred acc (b :: t) b = false := by
          have : (b :: t).all (fun c =>
              decide (c.seatsBooked.length ≤ b.seatsBooked.length)) = false := by
            simp only [List.all_eq_false]
            exact ⟨c0, by simp [hc0], by simpa using hbc0⟩
          simp [auxPred, this]
        rw [List.find?_cons, hbfail]
        -- the find? on t cannot be none: a maximal element of t is a witness
        have htne : t ≠ [] := by rintro rfl; simp_all
        obtain ⟨x, hx, hmax⟩ := exists_max_len t htne
        have hxpred : auxPred acc (b :: t) x = true := by
          have hbx : b.seatsBooked.length < x.seatsBooked.length :=
            lt_of_lt_of_le hbc0 (hmax c0 hc0)
          simp only [auxPred, List.all_cons, Bool.and_eq_true, decide_eq_true_eq,
            List.all_eq_true]
          exact ⟨lt_trans hb hbx, le_of_lt hbx, fun c hc => by simpa using hmax c hc⟩
        cases hfind : t.find? (auxPred acc (b :: t)) with
        | none =>
          exact absurd hxpred (by simpa using List.find?_eq_none.mp hfind x hx)
        | some y => rfl
    · have hpick : pickLonger acc b = acc := if_neg hb
      rw [hpick]
      have hble : b.seatsBooked.length ≤ acc.length := le_of_not_lt hb
      have hbfail : auxPred acc (b :: t) b = false := by
        simp [auxPred, hb]
      have hcong : ∀ x ∈ t, auxPred acc t x = auxPred acc (b :: t) x := by
        intro x hx
        by_cases hax : acc.length < x.seatsBooked.length
        · have hbx : (decide (b.seatsBooked.length ≤ x.seatsBooked.length)) = true := by
            simpa using le_of_lt (lt_of_le_of_lt hble hax)
          simp [auxPred, List.all_cons, hbx]
        · simp [auxPred, hax]
      rw [find?_congr_mem hcong, List.find?_cons, hbfail]

/-- The read-path fold (`maxBookedSeats`) computes exactly the spec's resolve
rule: the stored list of the first group member of maximal list length. -/
theorem maxBookedSeats_eq_spec (l : List Bus) :
    maxBookedSeats l = specResolveFirstLongest l := by
  rw [maxBookedSeats, foldl_pickLonger_eq l []]
  by_cases hz : ∀ b ∈ l, b.seatsBooked.length = 0
  · have haux : l.find? (auxPred [] l) = none := by
      rw [List.find?_eq_none]
      intro b hb
      simp [auxPred, hz b hb]
    rw [haux]
    cases hs : l.find? (fun b =>
        l.all (fun c => decide (c.seatsBooked.length ≤ b.seatsBooked.length))) with
    | none => simp [specResolveFirstLongest, hs, seatsOr]
    | some b =>
      have hmem := List.mem_of_find?_eq_some hs
      have hlen := hz b hmem
      simp [specResolveFirstLongest, hs, seatsOr, List.length_eq_zero.mp hlen]
  · push_neg at hz
    obtain ⟨c0, hc0, hlen0⟩ := hz
    have hpos : 0 < c0.seatsBooked.length := Nat.pos_of_ne_zero hlen0
    have hcong : ∀ x ∈ l, auxPred [] l x =
        l.all (fun c => decide (c.seatsBooked.length ≤ x.seatsBooked.length)) := by
      intro x hx
      by_cases hallx : l.all (fun c =>
          decide (c.seatsBooked.length ≤ x.seatsBooked.length)) = true
      · have hxe : 0 < x.seatsBooked.length := by
          have := List.all_eq_true.mp hallx c0 hc0
          simp only [decide_eq_true_eq] at this
          exact lt_of_lt_of_le hpos this
        simp [auxPred, hallx, hxe]
      · simp [auxPred, eq_false_of_ne_true hallx]
    rw [find?_congr_mem hcong, specResolveFirstLongest]
    cases hs : l.find? (fun b =>
        l.all (fun c => decide (c.seatsBooked.length ≤ b.seatsBooked.length))) with
    | none => rfl
    | some b => rfl

/-! ### Commit and booking inversion lemmas -/

theorem commitFn_id (gid : String) (nl : List String) (cap : Nat) (b : Bus) :
    (commitFn gid nl cap b).id = b.id := by
  unfold commitFn
  by_cases h : b.busGroupId = gid <;> simp [h]

theorem commitFn_busGroupId (gid : String) (nl : List String) (cap : Nat) (b : Bus) :
    (commitFn gid nl cap b).busGroupId = b.busGroupId := by
  unfold commitFn
  by_cases h : b.busGroupId = gid <;> simp [h]

theorem commitFn_capacity (gid : String) (nl : List String) (cap : Nat) (b : Bus) :
    (commitFn gid nl cap b).capacity = b.capacity := by
  unfold commitFn
  by_cases h : b.busGroupId = gid <;> simp [h]

theorem commitFn_group_seats {gid : String} (nl : List String) (cap : Nat) {b : Bus}
    (h : b.busGroupId = gid) :
    (commitFn gid nl cap b).seatsBooked = nl ∧
      (commitFn gid nl cap b).isFullyBooked = decide (cap ≤ nl.length) := by
  simp [commitFn, h]

/-- Every member of the group after a commit carries the committed list and
flag, and its capacity is that of a pre-commit group member. -/
theorem commitGroup_group_mem {db : List Bus} {gid : String} {nl : List String}
    {cap : Nat} {b : Bus} (hb : b ∈ commitGroup db gid nl cap)
    (hg : b.busGroupId = gid) :
    b.seatsBooked = nl ∧ b.isFullyBooked = decide (cap ≤ nl.length) ∧
      ∃ b0 ∈ db, b0.busGroupId = gid ∧ b.capacity = b0.capacity := by
  obtain ⟨b0, hb0, rfl⟩ := List.mem_map.mp hb
  have hg0 : b0.busGroupId = gid := by
    rw [← commitFn_busGroupId gid nl cap b0]
    exact hg
  obtain ⟨h1, h2⟩ := commitFn_group_seats nl cap hg0
  exact ⟨h1, h2, b0, hb0, hg0, commitFn_capacity gid nl cap b0⟩

/-- Inversion of a successful `POST /book-seats`: the request was non-empty,
the requested bus exists, no requested seat was on the authoritative list, the
capacity check passed, and the result is the group-wide commit of the appended
list. -/
theorem bookSeats_ok_elim {db : List Bus} {busId : Nat} {seats : List String}
    {db2 : List Bus} (h : bookSeats db busId seats = .ok db2) :
    ∃ rb g0 rest, findBus db busId = some rb ∧
      db.filter (fun b => b.busGroupId = rb.busGroupId) = g0 :: rest ∧
      seats ≠ [] ∧
      (∀ s ∈ seats, s ∉ (authoritativeBusOf g0 rest).seatsBooked) ∧
      (authoritativeBusOf g0 rest).seatsBooked.length + seats.length ≤ rb.capacity ∧
      db2 = commitGroup db rb.busGroupId
        ((authoritativeBusOf g0 rest).seatsBooked ++ seats) rb.capacity := by
  unfold bookSeats at h
  by_cases hde : seats.isEmpty
  · simp [hde] at h
  · simp only [hde, Bool.false_eq_true, if_false] at h
    cases hfind : findBus db busId with
    | none => rw [hfind] at h; simp at h
    | some rb =>
      simp only [hfind] at h
      cases hfil : db.filter (fun b => b.busGroupId = rb.busGroupId) with
      | nil => rw [hfil] at h; simp at h
      | cons g0 rest =>
        rw [hfil] at h
        simp only at h
        refine ⟨rb, g0, rest, rfl, hfil, by simpa [List.isEmpty_iff] using hde, ?_⟩
        by_cases hconf : 0 < (seats.filter (fun s =>
            (authoritativeBusOf g0 rest).seatsBooked.contains s)).length
        · rw [if_pos hconf] at h; simp at h
        · rw [if_neg hconf] at h
          have hnone : ∀ s ∈ seats, s ∉ (authoritativeBusOf g0 rest).seatsBooked := by
            have : (seats.filter (fun s =>
                (authoritativeBusOf g0 rest).seatsBooked.contains s)) = [] := by
              have := Nat.eq_zero_of_not_pos hconf
              exact List.length_eq_zero.mp this
            intro s hs hmem
            have h2 := List.filter_eq_nil_iff.mp this s hs
            exact h2 (List.elem_eq_true_of_mem hmem)
          by_cases hcap : rb.capacity <
              (authoritativeBusOf g0 rest).seatsBooked.length + seats.length
          · rw [if_pos hcap] at h; simp at h
          · rw [if_neg hcap] at h
            refine ⟨hnone, le_of_not_lt hcap, ?_⟩
            simpa using h.symm

/-! ### Concrete fixtures -/

/-- A plain bus document used by the concrete witnesses and counterexamples. -/
def baseBus : Bus :=
  { id := 0, busGroupId := "g", capacity := 10, «from» := "A", «to» := "B"
  , pickup := "P", dropoff := "D", journeydate := 0, departure := "08:00"
  , arrival := "10:00", price := 100, status := "Yet To Start"
  , seatsBooked := [], isFullyBooked := false, isActive := true
  , isSegment := false, parentBus := none }

/-! ### C3: the reconciler's resolve rule -/

/-- C3: for every group, the resolve computation of the read paths (listing,
search, get-by-id) and of the seat-booking path returns exactly the stored
`seatsBooked` list of the group member whose list is longest, first found on
ties, as the spec words it (`specResolveFirstLongest`) — not a union or
de-duplication of the group's lists. -/
theorem resolve_is_first_longest_stored_list :
    (∀ buses : List Bus, maxBookedSeats buses = specResolveFirstLongest buses) ∧
    (∀ db gid, groupSeats db gid =
        specResolveFirstLongest (db.filter (fun b => b.busGroupId = gid))) ∧
    (∀ db bus, getBusSharedSeats db bus =
        specResolveFirstLongest (db.filter (fun b => b.busGroupId = bus.busGroupId))) ∧
    (∀ g0 rest, (authoritativeBusOf g0 rest).seatsBooked =
        specResolveFirstLongest (g0 :: rest)) := by
  refine ⟨maxBookedSeats_eq_spec,
    fun db gid => maxBookedSeats_eq_spec _,
    fun db bus => maxBookedSeats_eq_spec _,
    fun g0 rest => ?_⟩
  rw [authoritativeBusOf_seats]
  exact maxBookedSeats_eq_spec _

/-! ### C5: what cancellation actually releases -/

/-- C5 (amended): cancelling a not-yet-cancelled booking succeeds, marks the
booking cancelled, and removes the booking's claimed seats from the one bus
document the booking references — and from no other document, so sibling
segments of the group keep their stored lists. -/
theorem cancelBooking_releases_only_referenced_bus (db : List Bus)
    (bookings : List Booking) (bookingId : Nat) (bk : Booking)
    (hfind : bookings.find? (fun b => b.id = bookingId) = some bk)
    (hst : bk.status ≠ .cancelled) :
    cancelBooking db bookings bookingId =
      .ok (db.map (fun b =>
             if b.id = bk.busId then
               { b with
                 seatsBooked := b.seatsBooked.filter (fun s => !bk.seats.contains s) }
             else b),
           bookings.map (fun b =>
             if b.id = bookingId then { b with status := BookingStatus.cancelled }
             else b)) := by
  unfold cancelBooking
  simp only [hfind]
  rw [if_neg hst]
  cases hbus : findBus db bk.busId with
  | none =>
    have hnone : ∀ b ∈ db,
        (fun b => if b.id = bk.busId then
            { b with
              seatsBooked := b.seatsBooked.filter (fun s => !bk.seats.contains s) }
          else b) b = b := by
      intro b hb
      have := List.find?_eq_none.mp hbus b hb
      simp only [decide_eq_true_eq] at this
      simp [this]
    rw [map_eq_self_of hnone]
  | some b => rfl

/-- Sibling segment fixture: two documents of group "g" both storing seat "1"
(the state the group-wide booking endpoint produces), plus the booking that
claimed the seat on the first document. -/
def cxBus1 : Bus := { baseBus with id := 1, seatsBooked := ["1"] }

/-- Second sibling segment of the C5 counterexample group. -/
def cxBus2 : Bus := { baseBus with id := 2, seatsBooked := ["1"] }

/-- The confirmed booking of seat "1" on `cxBus1`. -/
def cxBooking : Booking :=
  { id := 1, busId := 1, seats := ["1"], transactionId := "t"
  , totalPrice := 5, status := .confirmed }

/-- C5 counterexample: cancelling the booking removes seat "1" only from the
referenced document; the sibling keeps it, so the group's reconciled seat set
afterwards is still `["1"]`, not the claimed `reconciledSet minus
booking.seats = []`. -/
theorem c5_counterexample :
    cancelBooking [cxBus1, cxBus2] [cxBooking] 1 =
      .ok ([{ cxBus1 with seatsBooked := [] }, cxBus2],
           [{ cxBooking with status := BookingStatus.cancelled }]) ∧
    groupSeats [{ cxBus1 with seatsBooked := [] }, cxBus2] "g" = ["1"] ∧
    (groupSeats [cxBus1, cxBus2] "g").filter
      (fun s => !cxBooking.seats.contains s) = [] := by
  exact ⟨rfl, rfl, rfl⟩

/-! ### C7: segment generation on route creation -/

/-- C7: an add-bus submission with intermediate stops `[B, C]` and final
destination `D` produces exactly 3 segment records, destined to B, C and D in
that order, all sharing the main document's id as group id, each starting with
an empty seat list and carrying the submission's capacity. -/
theorem addBus_three_segments (req : AddBusReq) (mainId : Nat) (sB sC : Stop)
    (hstops : req.intermediateStops = [sB, sC]) :
    ((addBus req mainId).filter (fun b => b.isSegment)).length = 3 ∧
    ((addBus req mainId).filter (fun b => b.isSegment)).map (fun b => b.«to»)
      = [sB.city, sC.city, req.«to»] ∧
    ∀ b ∈ (addBus req mainId).filter (fun b => b.isSegment),
      b.busGroupId = toString mainId ∧ b.seatsBooked = [] ∧
        b.capacity = req.capacity := by
  refine ⟨?_, ?_, ?_⟩ <;>
    simp [addBus, hstops, mkSegment, List.filter, List.enum, List.enumFrom]

/-- Concrete request used by the C7 witness. -/
def c7req : AddBusReq :=
  { «from» := "A", «to» := "D", pickup := "P", dropoff := "dD"
  , journeydate := 0, departure := "08:00", arrival := "12:00", price := 100
  , capacity := 44
  , intermediateStops :=
      [ { city := "B", dropoff := "dB", arrivalTime := "09:00", additionalPrice := 40 }
      , { city := "C", dropoff := "dC", arrivalTime := "10:00", additionalPrice := 70 } ] }

/-- Witness for C7 at a concrete submission. -/
theorem addBus_three_segments_witness :
    ((addBus c7req 5).filter (fun b => b.isSegment)).length = 3 ∧
    ((addBus c7req 5).filter (fun b => b.isSegment)).map (fun b => b.«to»)
      = ["B", "C", "D"] ∧
    ((addBus c7req 5).filter (fun b => b.isSegment)).all
      (fun b => decide (b.busGroupId = toString 5) && b.seatsBooked.isEmpty &&
        decide (b.capacity = 44)) = true := by
  have h := addBus_three_segments c7req 5
    { city := "B", dropoff := "dB", arrivalTime := "09:00", additionalPrice := 40 }
    { city := "C", dropoff := "dC", arrivalTime := "10:00", additionalPrice := 70 }
    rfl
  refine ⟨h.1, h.2.1, List.all_eq_true.mpr ?_⟩
  intro b hb
  obtain ⟨h1, h2, h3⟩ := h.2.2 b hb
  simp only [h1, h2, h3]
  simp [c7req]

/-! ### C9: local payment-cancellation short-circuit -/

/-- C9: while a local cancellation mark for a reference is younger than the
30-minute window, both status verification and OTP submission answer with the
cancelled response without contacting the provider; once the window has
elapsed the mark is dropped and both calls contact the provider again. -/
theorem payment_cancellation_shortcircuit (now t : Int)
    (store : List (String × Int)) (reference otp : String)
    (href : reference ≠ "") (hotp : otp ≠ "") (hvalid : validOtp otp = true)
    (hmark : store.find? (fun e => e.1 = reference) = some (reference, t)) :
    (now - t < cancelWindowMs →
      verifyPayment now store reference = (.cancelledResponse, store) ∧
      submitOtp now store reference otp = (.cancelledResponse, store)) ∧
    (cancelWindowMs ≤ now - t →
      verifyPayment now store reference =
        (.contactedProvider, store.filter (fun e => !(e.1 = reference))) ∧
      submitOtp now store reference otp =
        (.contactedProvider, store.filter (fun e => !(e.1 = reference))) ∧
      (store.filter (fun e => !(e.1 = reference))).find?
        (fun e => e.1 = reference) = none) := by
  constructor
  · intro hin
    have hc : isTransactionCancelled now store reference = (true, store) := by
      unfold isTransactionCancelled
      rw [if_neg href, hmark]
      simp [hin]
    constructor
    · unfold verifyPayment
      rw [if_neg href, hc]
      simp
    · unfold submitOtp
      have hne : ¬ (reference = "" ∨ otp = "") := by
        rintro (h | h) <;> [exact href h; exact hotp h]
      rw [if_neg hne, hc]
      simp
  · intro hout
    have hc : isTransactionCancelled now store reference =
        (false, store.filter (fun e2 => !(e2.1 = reference))) := by
      unfold isTransactionCancelled
      rw [if_neg href, hmark]
      simp only
      rw [if_neg (not_lt.mpr hout)]
    refine ⟨?_, ?_, ?_⟩
    · unfold verifyPayment
      rw [if_neg href, hc]
      simp
    · unfold submitOtp
      have hne : ¬ (reference = "" ∨ otp = "") := by
        rintro (h | h) <;> [exact href h; exact hotp h]
      rw [if_neg hne, hc]
      simp [hvalid]
    · rw [List.find?_eq_none]
      intro e he
      have := (List.mem_filter.mp he).2
      simpa using this

/-- Witness for C9: reference "r" marked at time 0; at 1000 ms both calls
short-circuit; at exactly the 30-minute mark both contact the provider and the
mark is gone. -/
theorem payment_cancellation_shortcircuit_witness :
    (verifyPayment 1000 [("r", 0)] "r" = (.cancelledResponse, [("r", 0)]) ∧
      submitOtp 1000 [("r", 0)] "r" "1234" = (.cancelledResponse, [("r", 0)])) ∧
    (verifyPayment 1800000 [("r", 0)] "r" = (.contactedProvider, []) ∧
      submitOtp 1800000 [("r", 0)] "r" "1234" = (.contactedProvider, []) ∧
      ([] : List (String × Int)).find? (fun e => e.1 = "r") = none) := by
  have h1 := payment_cancellation_shortcircuit 1000 0 [("r", 0)] "r" "1234"
    (by decide) (by decide) (by rfl) (by rfl)
  have h2 := payment_cancellation_shortcircuit 1800000 0 [("r", 0)] "r" "1234"
    (by decide) (by decide) (by rfl) (by rfl)
  constructor
  · simpa using h1.1 (by decide)
  · simpa using h2.2 (by decide)

/-! ### C10: cancellation and deletion with a missing bus -/

/-- C10: when the bus referenced by a booking no longer exists, cancelling
still succeeds (the booking is marked cancelled) and deleting still succeeds
(the booking is removed); in both cases the bus collection is untouched — the
seat-release step is silently skipped and no error is reported. -/
theorem missing_bus_cancel_delete (db : List Bus) (bookings : List Booking)
    (bookingId : Nat) (bk : Booking)
    (hfind : bookings.find? (fun b => b.id = bookingId) = some bk)
    (hbus : findBus db bk.busId = none) :
    (bk.status ≠ .cancelled →
      cancelBooking db bookings bookingId =
        .ok (db, bookings.map (fun b =>
          if b.id = bookingId then { b with status := BookingStatus.cancelled }
          else b))) ∧
    deleteBooking db bookings bookingId =
      .ok (db, bookings.filter (fun b => !(b.id = bookingId))) := by
  constructor
  · intro hst
    unfold cancelBooking
    simp only [hfind]
    rw [if_neg hst, hbus]
  · unfold deleteBooking
    simp only [hfind, hbus]

/-- Witness for C10: a booking referencing bus 5 in an empty bus collection. -/
theorem missing_bus_cancel_delete_witness :
    cancelBooking [] [cxBooking] 1 =
      .ok ([], [{ cxBooking with status := BookingStatus.cancelled }]) ∧
    deleteBooking [] [cxBooking] 1 = .ok ([], []) := by
  have h := missing_bus_cancel_delete [] [cxBooking] 1 cxBooking (by rfl) (by rfl)
  refine ⟨?_, ?_⟩
  · simpa using h.1 (by decide)
  · simpa using h.2

/-- Witness for the amended C5 at the two-segment fixture. -/
theorem cancelBooking_releases_only_referenced_bus_witness :
    cancelBooking [cxBus1, cxBus2] [cxBooking] 1 =
      .ok ([cxBus1, cxBus2].map (fun b =>
             if b.id = cxBooking.busId then
               { b with
                 seatsBooked := b.seatsBooked.filter (fun s => !cxBooking.seats.contains s) }
             else b),
           [cxBooking].map (fun b =>
             if b.id = 1 then { b with status := BookingStatus.cancelled }
             else b)) :=
  cancelBooking_releases_only_referenced_bus [cxBus1, cxBus2] [cxBooking] 1
    cxBooking rfl (by decide)

/-! ### C8: listing exclusion and booking cutoff -/

/-- C8 (amended): the listing filter drops a segment exactly when its arrival
time parses as HH:MM and the journey day combined with it plus the 60-minute
grace period is at or before `now` (the boundary instant is excluded as well,
since the code keeps a bus only while `now` is strictly earlier); and
`bookingDisabled` is true exactly when the departure time parses and `now` is
at or past the journey-day departure minus 30 minutes. -/
theorem listing_exclusion_and_cutoff (now : Int) (b : Bus) :
    (keepBus now b = false ↔ ∃ h m, findHHMM b.arrival.toList = some (h, m) ∧
        dayTimeMinutes b.journeydate h m + 60 ≤ now) ∧
    (busBookingDisabled now b = true ↔ ∃ h m,
        findHHMM b.departure.toList = some (h, m) ∧
        dayTimeMinutes b.journeydate h m - 30 ≤ now) := by
  constructor
  · unfold keepBus
    cases hf : findHHMM b.arrival.toList with
    | none => simp [hf]
    | some hm =>
      obtain ⟨h, m⟩ := hm
      simp only [hf, decide_eq_false_iff_not, not_lt, Option.some.injEq,
        Prod.mk.injEq]
      constructor
      · intro hle
        exact ⟨h, m, ⟨rfl, rfl⟩, hle⟩
      · rintro ⟨h2, m2, ⟨rfl, rfl⟩, hle⟩
        exact hle
  · unfold busBookingDisabled
    cases hf : findHHMM b.departure.toList with
    | none => simp [hf]
    | some hm =>
      obtain ⟨h, m⟩ := hm
      simp only [hf, decide_eq_true_eq, Option.some.injEq, Prod.mk.injEq]
      constructor
      · intro hle
        exact ⟨h, m, ⟨rfl, rfl⟩, hle⟩
      · rintro ⟨h2, m2, ⟨rfl, rfl⟩, hle⟩
        exact hle

/-- C8 counterexample: at the exact instant `now = journey day arrival +
60 minutes` (arrival 10:00 plus 60 min on day 0, i.e. minute 660) the handler
excludes the segment even though arrival-plus-grace is not strictly before
`now`, so the claimed "excludes exactly when ... is before now" fails at the
boundary. -/
theorem c8_counterexample :
    findHHMM baseBus.arrival.toList = some (10, 0) ∧
    keepBus 660 baseBus = false ∧
    ¬ (dayTimeMinutes baseBus.journeydate 10 0 + 60 < 660) := by
  exact ⟨rfl, rfl, by decide⟩

/-! ### C4: the group-wide commit of a successful booking -/

/-- C4: after a successful `POST /book-seats`, every document of the requested
bus's group stores the same new booked-seat list (the group's reconciled list
with the requested seats appended), and — capacities being identical across
the group, as the data model requires — each document's fully-booked flag is
set exactly when the new list's length reaches the capacity. -/
theorem bookSeats_commit_group (db db2 : List Bus) (busId : Nat)
    (seats : List String) (rb : Bus)
    (hfind : findBus db busId = some rb)
    (hok : bookSeats db busId seats = .ok db2)
    (hcap : ∀ b ∈ db, b.busGroupId = rb.busGroupId → b.capacity = rb.capacity) :
    ∀ b ∈ db2, b.busGroupId = rb.busGroupId →
      b.seatsBooked = groupSeats db rb.busGroupId ++ seats ∧
      (b.isFullyBooked = true ↔
        b.capacity ≤ (groupSeats db rb.busGroupId ++ seats).length) := by
  obtain ⟨rb2, g0, rest, hfind2, hfil, hne, hnomem, hcaple, hdb2⟩ :=
    bookSeats_ok_elim hok
  rw [hfind] at hfind2
  injection hfind2 with heq
  subst heq
  subst hdb2
  intro b hb hgid
  obtain ⟨h1, h2, b0, hb0, hgid0, hcap0⟩ := commitGroup_group_mem hb hgid
  have hauth : (authoritativeBusOf g0 rest).seatsBooked = groupSeats db rb.busGroupId := by
    rw [authoritativeBusOf_seats, groupSeats, hfil]
  constructor
  · rw [h1, hauth]
  · rw [h2, hcap0, hcap b0 hb0 hgid0, hauth]
    simp

/-- Witness for C4: booking seat "1" on the singleton group of `baseBus`. -/
theorem bookSeats_commit_group_witness :
    ({ baseBus with seatsBooked := ["1"] } : Bus).seatsBooked
        = groupSeats [baseBus] "g" ++ ["1"] ∧
    (({ baseBus with seatsBooked := ["1"] } : Bus).isFullyBooked = true ↔
      ({ baseBus with seatsBooked := ["1"] } : Bus).capacity
        ≤ (groupSeats [baseBus] "g" ++ ["1"]).length) := by
  have h := bookSeats_commit_group [baseBus] [{ baseBus with seatsBooked := ["1"] }]
    0 ["1"] baseBus rfl rfl
    (by intro b hb hg; simp only [List.mem_singleton] at hb; rw [hb])
  exact h { baseBus with seatsBooked := ["1"] } (by simp) rfl

/-! ### C6: error conditions of the seat-booking operation -/

/-- C6: `POST /book-seats` requires a non-empty seats list; answers NotFound
when the referenced bus is missing (a bus that exists is always a member of
its own group, so a missing group is subsumed); answers Conflict naming
exactly the offending seats when any requested seat is already in the group's
reconciled set; and answers Conflict when the reconciled size plus the request
size exceeds the capacity. -/
theorem bookSeats_error_conditions :
    (∀ db busId, bookSeats db busId [] = .error .invalidRequest) ∧
    (∀ db busId seats, seats ≠ [] → findBus db busId = none →
      bookSeats db busId seats = .error .busNotFound) ∧
    (∀ db busId seats rb, findBus db busId = some rb →
      seats.filter (fun s => (groupSeats db rb.busGroupId).contains s) ≠ [] →
      bookSeats db busId seats = .error (.seatsAlreadyBooked
        (seats.filter (fun s => (groupSeats db rb.busGroupId).contains s)))) ∧
    (∀ db busId seats rb, seats ≠ [] → findBus db busId = some rb →
      seats.filter (fun s => (groupSeats db rb.busGroupId).contains s) = [] →
      rb.capacity < (groupSeats db rb.busGroupId).length + seats.length →
      bookSeats db busId seats = .error .notEnoughSeats) := by
  have hgroup : ∀ (db : List Bus) (busId : Nat) (rb : Bus),
      findBus db busId = some rb →
      ∃ g0 rest, db.filter (fun b => b.busGroupId = rb.busGroupId) = g0 :: rest := by
    intro db busId rb hfind
    have hmem : rb ∈ db := List.mem_of_find?_eq_some hfind
    have hin : rb ∈ db.filter (fun b => b.busGroupId = rb.busGroupId) :=
      List.mem_filter.mpr ⟨hmem, by simp⟩
    rcases hfl : db.filter (fun b => b.busGroupId = rb.busGroupId) with _ | ⟨g0, rest⟩
    · rw [hfl] at hin; simp at hin
    · exact ⟨g0, rest, hfl⟩
  refine ⟨fun db busId => rfl, ?_, ?_, ?_⟩
  · intro db busId seats hne hfind
    unfold bookSeats
    rw [if_neg (by simpa [List.isEmpty_iff] using hne), hfind]
  · intro db busId seats rb hfind hconf
    obtain ⟨g0, rest, hfil⟩ := hgroup db busId rb hfind
    have hauth : (authoritativeBusOf g0 rest).seatsBooked = groupSeats db rb.busGroupId := by
      rw [authoritativeBusOf_seats, groupSeats, hfil]
    have hne : seats ≠ [] := by
      rintro rfl
      simp at hconf
    unfold bookSeats
    rw [if_neg (by simpa [List.isEmpty_iff] using hne), hfind]
    simp only [hfil]
    rw [hauth, if_pos (List.length_pos.mpr hconf)]
  · intro db busId seats rb hne hfind hnoconf hcap
    obtain ⟨g0, rest, hfil⟩ := hgroup db busId rb hfind
    have hauth : (authoritativeBusOf g0 rest).seatsBooked = groupSeats db rb.busGroupId := by
      rw [authoritativeBusOf_seats, groupSeats, hfil]
    unfold bookSeats
    rw [if_neg (by simpa [List.isEmpty_iff] using hne), hfind]
    simp only [hfil]
    rw [hauth, if_neg (by rw [hnoconf]; simp), if_pos hcap]

/-- Witness for C6: the four error branches at concrete inputs — an empty
request, a missing bus, a conflicting seat and a capacity overflow. -/
theorem bookSeats_error_conditions_witness :
    bookSeats [baseBus] 0 [] = .error .invalidRequest ∧
    bookSeats [baseBus] 1 ["1"] = .error .busNotFound ∧
    bookSeats [cxBus1, cxBus2] 1 ["1", "2"] =
      .error (.seatsAlreadyBooked ["1"]) ∧
    bookSeats [{ baseBus with capacity := 1 }] 0 ["1", "2"] =
      .error .notEnoughSeats := by
  refine ⟨bookSeats_error_conditions.1 [baseBus] 0, ?_, ?_, ?_⟩
  · exact bookSeats_error_conditions.2.1 [baseBus] 1 ["1"] (by decide) rfl
  · have h := bookSeats_error_conditions.2.2.1 [cxBus1, cxBus2] 1 ["1", "2"]
      cxBus1 rfl (by decide)
    simpa using h
  · exact bookSeats_error_conditions.2.2.2 [{ baseBus with capacity := 1 }] 0
      ["1", "2"] { baseBus with capacity := 1 } (by decide) rfl (by decide) (by decide)

/-! ### C2: double-booking protection across a group -/

/-- First segment of the C2 group: empty seats, group "g". -/
def c2bus1 : Bus := { baseBus with id := 1 }

/-- Second segment of the C2 group. -/
def c2bus2 : Bus := { baseBus with id := 2 }

/-- The booking created by the first C2 call. -/
def c2bk1 : Booking :=
  { id := 1, busId := 1, seats := ["7"], transactionId := "t1"
  , totalPrice := 5, status := .confirmed }

/-- The booking created by the second C2 call. -/
def c2bk2 : Booking :=
  { id := 2, busId := 2, seats := ["7"], transactionId := "t2"
  , totalPrice := 5, status := .confirmed }

/-- C2 counterexample: seat "7" is booked on segment 1 through
`POST /book-seat`, which records it only on that one document; a second,
sequential request for the same seat on sibling segment 2 of the same group
through the same endpoint then succeeds instead of being rejected with a
Conflict. -/
theorem c2_counterexample :
    bookSeat [c2bus1, c2bus2] [] 1 1 "t1" 5 ["7"] =
      .ok ([{ c2bus1 with seatsBooked := ["7"] }, c2bus2], [c2bk1]) ∧
    bookSeat [{ c2bus1 with seatsBooked := ["7"] }, c2bus2] [c2bk1] 2 2 "t2" 5 ["7"] =
      .ok ([{ c2bus1 with seatsBooked := ["7"] },
            { c2bus2 with seatsBooked := ["7"] }], [c2bk1, c2bk2]) := by
  exact ⟨rfl, rfl⟩

/-- C2 (amended): when the first booking goes through the group-wide
`POST /book-seats` endpoint (which commits the new list to every sibling), a
second sequential request containing any of its seats, aimed at any segment of
the same group, is rejected with a Conflict naming that seat by both booking
endpoints.  A first booking made through the single-document
`POST /book-seat` endpoint does not enjoy this protection (see the
counterexample). -/
theorem booked_group_seat_rejected (db db2 : List Bus) (busA busB : Nat)
    (seatsA seatsB : List String) (s : String) (rbA rbB : Bus)
    (bookings : List Booking) (newId : Nat) (tx : String) (tp : Nat)
    (hok : bookSeats db busA seatsA = .ok db2)
    (hs : s ∈ seatsA)
    (hfindA : findBus db busA = some rbA)
    (hfindB : findBus db busB = some rbB)
    (hgrp : rbB.busGroupId = rbA.busGroupId)
    (hsB : s ∈ seatsB)
    (htx : tx ≠ "") (htp : tp ≠ 0) :
    (∃ offending, bookSeats db2 busB seatsB =
        .error (.seatsAlreadyBooked offending) ∧ s ∈ offending) ∧
    (∃ offending, bookSeat db2 bookings newId busB tx tp seatsB =
        .error (.seatsAlreadyBooked offending) ∧ s ∈ offending) := by
  obtain ⟨rb2, g0, rest, hfind2, hfil, hneA, hnomem, hcaple, hdb2⟩ :=
    bookSeats_ok_elim hok
  rw [hfindA] at hfind2
  injection hfind2 with heq
  subst heq
  subst hdb2
  have hsnl : s ∈ (authoritativeBusOf g0 rest).seatsBooked ++ seatsA :=
    List.mem_append.mpr (Or.inr hs)
  have hneB : ¬ seatsB.isEmpty = true := by
    simp [List.isEmpty_iff]
    rintro rfl
    simp at hsB
  have hfindB2 : findBus
      (commitGroup db rbA.busGroupId
        ((authoritativeBusOf g0 rest).seatsBooked ++ seatsA) rbA.capacity) busB =
      some (commitFn rbA.busGroupId
        ((authoritativeBusOf g0 rest).seatsBooked ++ seatsA) rbA.capacity rbB) := by
    unfold commitGroup
    rw [findBus_map_pres (commitFn_id rbA.busGroupId _ _), hfindB]
    rfl
  have hgidB2 : (commitFn rbA.busGroupId
      ((authoritativeBusOf g0 rest).seatsBooked ++ seatsA) rbA.capacity rbB).busGroupId
      = rbA.busGroupId := by
    rw [commitFn_busGroupId]
    exact hgrp
  have hseatsB2 : (commitFn rbA.busGroupId
      ((authoritativeBusOf g0 rest).seatsBooked ++ seatsA) rbA.capacity rbB).seatsBooked
      = (authoritativeBusOf g0 rest).seatsBooked ++ seatsA :=
    (commitFn_group_seats
      ((authoritativeBusOf g0 rest).seatsBooked ++ seatsA) rbA.capacity hgrp).1
  constructor
  · -- the group-wide endpoint rejects
    have hfilB : (commitGroup db rbA.busGroupId
        ((authoritativeBusOf g0 rest).seatsBooked ++ seatsA) rbA.capacity).filter
          (fun b => b.busGroupId = (commitFn rbA.busGroupId
            ((authoritativeBusOf g0 rest).seatsBooked ++ seatsA)
            rbA.capacity rbB).busGroupId) =
        (g0 :: rest).map (commitFn rbA.busGroupId
          ((authoritativeBusOf g0 rest).seatsBooked ++ seatsA) rbA.capacity) := by
      rw [hgidB2]
      unfold commitGroup
      rw [filter_map_pres (commitFn_busGroupId rbA.busGroupId _ _) db rbA.busGroupId,
        hfil]
    have hauthB : (authoritativeBusOf
        (commitFn rbA.busGroupId
          ((authoritativeBusOf g0 rest).seatsBooked ++ seatsA) rbA.capacity g0)
        (rest.map (commitFn rbA.busGroupId
          ((authoritativeBusOf g0 rest).seatsBooked ++ seatsA)
          rbA.capacity))).seatsBooked =
        (authoritativeBusOf g0 rest).seatsBooked ++ seatsA := by
      have hmem := authoritativeBusOf_mem
        (commitFn rbA.busGroupId
          ((authoritativeBusOf g0 rest).seatsBooked ++ seatsA) rbA.capacity g0)
        (rest.map (commitFn rbA.busGroupId
          ((authoritativeBusOf g0 rest).seatsBooked ++ seatsA) rbA.capacity))
      rw [← List.map_cons] at hmem
      obtain ⟨b, hb, hbeq⟩ := List.mem_map.mp hmem
      have hbfil : b ∈ db.filter (fun b => b.busGroupId = rbA.busGroupId) := by
        rw [hfil]
        exact hb
      have hbgid : b.busGroupId = rbA.busGroupId := by
        have := (List.mem_filter.mp hbfil).2
        simpa using this
      rw [← hbeq]
      exact (commitFn_group_seats
        ((authoritativeBusOf g0 rest).seatsBooked ++ seatsA) rbA.capacity hbgid).1
    refine ⟨List.filter (fun s2 =>
        ((authoritativeBusOf g0 rest).seatsBooked ++ seatsA).contains s2) seatsB,
      ?_, ?_⟩
    · unfold bookSeats
      rw [if_neg hneB]
      rw [hfindB2]
      simp only
      rw [hfilB]
      simp only [List.map_cons]
      rw [hauthB]
      rw [if_pos]
      rw [List.length_pos]
      intro hnil
      have := List.filter_eq_nil_iff.mp hnil s hsB
      exact this (List.elem_eq_true_of_mem hsnl)
    · exact List.mem_filter.mpr ⟨hsB, List.elem_eq_true_of_mem hsnl⟩
  · -- the single-document endpoint rejects too, since the commit reached rbB
    have hnott : ¬ (tx = "" ∨ tp = 0 ∨ seatsB.isEmpty = true) := by
      rintro (h | h | h)
      · exact htx h
      · exact htp h
      · exact hneB h
    refine ⟨List.filter (fun s2 =>
        ((authoritativeBusOf g0 rest).seatsBooked ++ seatsA).contains s2) seatsB,
      ?_, ?_⟩
    · unfold bookSeat
      rw [if_neg hnott]
      rw [hfindB2]
      simp only
      rw [hseatsB2]
      rw [if_pos]
      rw [List.length_pos]
      intro hnil
      have := List.filter_eq_nil_iff.mp hnil s hsB
      exact this (List.elem_eq_true_of_mem hsnl)
    · exact List.mem_filter.mpr ⟨hsB, List.elem_eq_true_of_mem hsnl⟩

/-- The C2 group state after booking seat "7" on segment 1 through the
group-wide endpoint: both documents carry the seat. -/
def c2dbAfter : List Bus :=
  [{ c2bus1 with seatsBooked := ["7"] }, { c2bus2 with seatsBooked := ["7"] }]

/-- Witness for the amended C2: after the group-wide booking of seat "7" on
segment 1, both endpoints reject a follow-up request for seat "7" on sibling
segment 2 with a Conflict naming the seat. -/
theorem booked_group_seat_rejected_witness :
    bookSeats [c2bus1, c2bus2] 1 ["7"] = .ok c2dbAfter ∧
    bookSeats c2dbAfter 2 ["7"] = .error (.seatsAlreadyBooked ["7"]) ∧
    bookSeat c2dbAfter [] 9 2 "t9" 5 ["7"] =
      .error (.seatsAlreadyBooked ["7"]) := by
  obtain ⟨⟨off1, h1, hm1⟩, ⟨off2, h2, hm2⟩⟩ :=
    booked_group_seat_rejected [c2bus1, c2bus2] c2dbAfter 1 2 ["7"] ["7"] "7"
      c2bus1 c2bus2 [] 9 "t9" 5 rfl (by decide) rfl rfl rfl (by decide)
      (by decide) (by decide)
  exact ⟨rfl, rfl, rfl⟩

/-! ### C1: the group seat-set invariant -/

/-- The per-group invariant: every document of the group stores a
duplicate-free seat list of length at most the shared capacity, and carries
that capacity. -/
def groupInv (C : Nat) (gid : String) (db : List Bus) : Prop :=
  ∀ b ∈ db, b.busGroupId = gid →
    b.seatsBooked.Nodup ∧ b.seatsBooked.length ≤ C ∧ b.capacity = C

/-- Single bus of capacity 2 in its own group, used against C1. -/
def c1bus : Bus := { baseBus with busGroupId := "g1", capacity := 2 }

/-- The booking record created by the C1 counterexample's first call. -/
def c1bk : Booking :=
  { id := 1, busId := 0, seats := ["1", "2", "3"], transactionId := "t1"
  , totalPrice := 5, status := .confirmed }

/-- C1 counterexample: (i) a single successful `POST /book-seat` call asking
for three seats on a capacity-2 bus succeeds (the endpoint has no capacity
check), leaving the group's reconciled set at size 3 > 2; (ii) a single
successful `POST /book-seats` call asking for the duplicated list
`["3", "3"]` succeeds and commits a reconciled set with a duplicate seat
identifier. -/
theorem c1_counterexample :
    (bookSeat [c1bus] [] 1 0 "t1" 5 ["1", "2", "3"] =
        .ok ([{ c1bus with seatsBooked := ["1", "2", "3"] }], [c1bk]) ∧
      groupSeats [{ c1bus with seatsBooked := ["1", "2", "3"] }] "g1"
        = ["1", "2", "3"] ∧
      ¬ ((groupSeats [{ c1bus with seatsBooked := ["1", "2", "3"] }] "g1").length
          ≤ 2)) ∧
    (bookSeats [c1bus] 0 ["3", "3"] =
        .ok [{ c1bus with seatsBooked := ["3", "3"], isFullyBooked := true }] ∧
      groupSeats [{ c1bus with seatsBooked := ["3", "3"], isFullyBooked := true }]
        "g1" = ["3", "3"] ∧
      ¬ (groupSeats
          [{ c1bus with seatsBooked := ["3", "3"], isFullyBooked := true }]
          "g1").Nodup) := by
  exact ⟨⟨rfl, rfl, by decide⟩, ⟨rfl, rfl, by decide⟩⟩

/-- One operation preserves the group invariant, provided its request list is
duplicate-free. -/
theorem groupInv_applyOp {C : Nat} {gid : String} {db : List Bus} (op : SeatOp)
    (hinv : groupInv C gid db) (hnd : op.seats.Nodup) :
    groupInv C gid (applyOp db op) := by
  cases op with
  | cancel busId seats =>
    intro b hb hgid
    simp only [applyOp, releaseSeats] at hb
    obtain ⟨b0, hb0, rfl⟩ := List.mem_map.mp hb
    by_cases hid : b0.id = busId
    · simp only [hid, if_true] at hgid ⊢
      have h0 := hinv b0 hb0 (by simpa using hgid)
      exact ⟨h0.1.filter _, le_trans (List.length_filter_le _ _) h0.2.1, h0.2.2⟩
    · simp only [hid, if_false] at hgid ⊢
      exact hinv b0 hb0 hgid
  | book busId seats =>
    simp only [applyOp]
    cases hres : bookSeats db busId seats with
    | error e => exact hinv
    | ok db2 =>
      obtain ⟨rb, g0, rest, hfind, hfil, hne, hnomem, hcaple, hdb2⟩ :=
        bookSeats_ok_elim hres
      subst hdb2
      intro b hb hgid
      simp only [commitGroup] at hb
      obtain ⟨b0, hb0, rfl⟩ := List.mem_map.mp hb
      by_cases hg0 : b0.busGroupId = rb.busGroupId
      · have hgidb0 : b0.busGroupId = gid := by
          rw [← commitFn_busGroupId rb.busGroupId
            ((authoritativeBusOf g0 rest).seatsBooked ++ seats) rb.capacity b0]
          exact hgid
        have hgid2 : rb.busGroupId = gid := hg0 ▸ hgidb0
        have hrbmem : rb ∈ db := List.mem_of_find?_eq_some hfind
        have hrbinv := hinv rb hrbmem hgid2
        have hauthfil : authoritativeBusOf g0 rest ∈
            db.filter (fun b => b.busGroupId = rb.busGroupId) := by
          rw [hfil]
          exact authoritativeBusOf_mem g0 rest
        have hauthdb : authoritativeBusOf g0 rest ∈ db :=
          (List.mem_filter.mp hauthfil).1
        have hauthgid : (authoritativeBusOf g0 rest).busGroupId = rb.busGroupId := by
          simpa using (List.mem_filter.mp hauthfil).2
        have hauthinv := hinv _ hauthdb (hauthgid.trans hgid2)
        obtain ⟨hseats, hflag⟩ := commitFn_group_seats
          ((authoritativeBusOf g0 rest).seatsBooked ++ seats) rb.capacity hg0
        refine ⟨?_, ?_, ?_⟩
        · rw [hseats]
          refine List.Nodup.append hauthinv.1 (by simpa [SeatOp.seats] using hnd) ?_
          intro a ha hain
          exact hnomem a hain ha
        · rw [hseats, List.length_append]
          exact le_trans hcaple (le_of_eq hrbinv.2.2)
        · rw [commitFn_capacity]
          exact (hinv b0 hb0 hgidb0).2.2
      · have hcfn : commitFn rb.busGroupId
            ((authoritativeBusOf g0 rest).seatsBooked ++ seats) rb.capacity b0
            = b0 := by
          simp [commitFn, hg0]
        rw [hcfn] at hgid ⊢
        exact hinv b0 hb0 hgid

/-- The invariant is preserved along any operation sequence. -/
theorem groupInv_runOps {C : Nat} {gid : String} :
    ∀ (ops : List SeatOp) (db : List Bus), groupInv C gid db →
      (∀ op ∈ ops, op.seats.Nodup) → groupInv C gid (runOps db ops) := by
  intro ops
  induction ops with
  | nil => intro db h _; exact h
  | cons op t ih =>
    intro db hinv hops
    exact ih (applyOp db op)
      (groupInv_applyOp op hinv (hops op (by simp)))
      (fun o ho => hops o (by simp [ho]))

/-- C1 (amended): for a group of shared capacity `C` starting with empty seat
sets, after any sequence of group-wide `POST /book-seats` bookings (successful
or rejected — rejected ones do not write) whose request lists are
duplicate-free, interleaved with cancellation seat-releases, the group's
reconciled seat set (the longest stored list, `groupSeats`) is duplicate-free
and never exceeds `C`.  The single-document `POST /book-seat` endpoint is
excluded: it checks no capacity, and duplicated request lists are never
de-duplicated (see the counterexample). -/
theorem group_reconciled_set_invariant (C : Nat) (gid : String)
    (db0 : List Bus) (ops : List SeatOp)
    (hinit : ∀ b ∈ db0, b.busGroupId = gid → b.seatsBooked = [] ∧ b.capacity = C)
    (hops : ∀ op ∈ ops, op.seats.Nodup) :
    (groupSeats (runOps db0 ops) gid).Nodup ∧
    (groupSeats (runOps db0 ops) gid).length ≤ C := by
  have hinv0 : groupInv C gid db0 := by
    intro b hb hg
    obtain ⟨h1, h2⟩ := hinit b hb hg
    exact ⟨by rw [h1]; exact List.nodup_nil, by rw [h1]; simp, h2⟩
  have hinv := groupInv_runOps ops db0 hinv0 hops
  unfold groupSeats maxBookedSeats
  rcases foldl_pickLonger_acc_or_mem
      ((runOps db0 ops).filter (fun b => b.busGroupId = gid)) [] with
    h | ⟨b, hbmem, h⟩
  · rw [h]
    exact ⟨List.nodup_nil, by simp⟩
  · rw [h]
    have hdb := (List.mem_filter.mp hbmem).1
    have hg : b.busGroupId = gid := by simpa using (List.mem_filter.mp hbmem).2
    have hb := hinv b hdb hg
    exact ⟨hb.1, hb.2.1⟩

/-- Operation sequence of the C1 witness: book a seat, release it, book two
seats. -/
def c1ops : List SeatOp :=
  [SeatOp.book 0 ["1"], SeatOp.cancel 0 ["1"], SeatOp.book 0 ["1", "2"]]

/-- Witness for the amended C1: running the concrete sequence on the
capacity-2 group keeps the reconciled set duplicate-free and within
capacity. -/
theorem group_reconciled_set_invariant_witness :
    (groupSeats (runOps [c1bus] c1ops) "g1").Nodup ∧
    (groupSeats (runOps [c1bus] c1ops) "g1").length ≤ 2 :=
  group_reconciled_set_invariant 2 "g1" [c1bus] c1ops (by decide) (by decide)

end BusQuick
